import Mathlib

/-!
Shallow embedding of the auth/token/proxy core of the
`oce-nextjs-gallery-sample` repository (an Oracle Content Management
Next.js image-gallery sample), together with theorems settling the
specification claims about it.

The embedded code comes from:
- `src/scripts/server-config-utils.js` (two variants of `getClient`, and
  `isAuthNeeded` / `getBearerAuth` / `getAuthValue`),
- `src/scripts/services.js` (`flattenArray`, `addItemsToCategories`),
- `src/scripts/utils.js` (`getImageUrl`),
- the Next.js API proxy route concatenated into `src/pages/_app.jsx`
  (`handleContentRequest`, `handler`).

JavaScript-specific behaviour is modelled explicitly:
- environment variables are `Option String`, with JS truthiness (absent
  and empty string are falsy);
- the module-global token cache (`globalAuthValue` / `globalAuthExpiry`)
  becomes an explicit `AuthState` threaded through `getAuthValue`;
- the network fetch performed by `getBearerAuth` becomes an explicit
  `FetchOutcome` parameter (either a failure, covering a thrown fetch or
  an unparsable response, or a JSON body carrying `access_token` and
  `expires_in`);
- clock reads (`new Date()` at the start of `getAuthValue` and
  `Date.now()` after the token fetch) become explicit integer
  millisecond-timestamp parameters `now` and `nowR`.
-/

/-- A JavaScript string-or-null value, as stored in the module-global
`globalAuthValue` (which over its lifetime holds `''`, a header string,
or `null`). -/
inductive JSVal where
  | null : JSVal
  | str (s : String) : JSVal
deriving DecidableEq, Repr

/-- JS truthiness of a string-or-null value: `null` and `''` are falsy. -/
def jsTruthy : JSVal → Bool
  | JSVal.null => false
  | JSVal.str s => s ≠ ""

/-- JS truthiness of an environment variable: unset and `''` are falsy. -/
def envTruthy : Option String → Bool
  | none => false
  | some s => s ≠ ""

/-- The environment-variable configuration surface read by
`server-config-utils.js` and `utils.js`. -/
structure Config where
  auth : Option String
  clientId : Option String
  clientSecret : Option String
  serverUrl : Option String
  apiVersion : Option String
  channelToken : Option String
  preview : Option String
  nextPublicServerUrl : Option String
deriving DecidableEq, Repr

/-- `isAuthNeeded` from `server-config-utils.js`:
`if (process.env.AUTH || process.env.CLIENT_ID) return true; return false;`. -/
def isAuthNeeded (cfg : Config) : Bool :=
  envTruthy cfg.auth || envTruthy cfg.clientId

/-- The module-global token-cache state of `server-config-utils.js`:
`let globalAuthValue = ''; let globalAuthExpiry = null;`.
The expiry is a `Date` holding a millisecond timestamp, or `null`. -/
structure AuthState where
  globalAuthValue : JSVal
  globalAuthExpiry : Option Int
deriving DecidableEq, Repr

/-- The initial module state: `globalAuthValue = ''`, `globalAuthExpiry = null`. -/
def initialAuthState : AuthState :=
  { globalAuthValue := JSVal.str "", globalAuthExpiry := none }

/-- Outcome of the `fetch` to the OAuth2 token endpoint inside
`getBearerAuth`: either the fetch throws / the response cannot be parsed
(`fail`), or it yields a JSON body with `access_token` and `expires_in`. -/
inductive FetchOutcome where
  | fail : FetchOutcome
  | ok (access_token : String) (expires_in : Int) : FetchOutcome
deriving DecidableEq, Repr

/-- The value produced by a successful `getBearerAuth`. -/
structure BearerAuthDetails where
  authHeaderValue : String
  expiry : Int
deriving DecidableEq, Repr

/-- `getBearerAuth` from `server-config-utils.js`, with the network call
abstracted by `outcome`.  On success it returns
`{ authHeaderValue: "Bearer " + access_token, expiry: expires_in }`;
a thrown fetch or unparsable JSON propagates as an error. -/
def getBearerAuth (outcome : FetchOutcome) : Except Unit BearerAuthDetails :=
  match outcome with
  | FetchOutcome.fail => Except.error ()
  | FetchOutcome.ok tok e =>
      Except.ok { authHeaderValue := "Bearer " ++ tok, expiry := e }

/-- The refresh condition of `getAuthValue` (lines 113-114 of
`server-config-utils.js`):
`!globalAuthValue || !globalAuthExpiry
  || (globalAuthExpiry.getTime() - FIVE_SECONDS_MS) > currentDate.getTime()`.
A `Date` object is always truthy, so `!globalAuthExpiry` is just
"the expiry is null". -/
def refreshCond (st : AuthState) (now : Int) : Bool :=
  !(jsTruthy st.globalAuthValue) || st.globalAuthExpiry.isNone
    || decide (st.globalAuthExpiry.getD 0 - 5000 > now)

deriving instance DecidableEq for Except

/-- The result of one call to `getAuthValue`: the value returned to the
caller (or a propagated error), the updated module-global state, and
whether a token fetch was performed. -/
structure AuthCallResult where
  result : Except Unit JSVal
  state : AuthState
  fetched : Bool
deriving DecidableEq, Repr

/-- `getAuthValue` from `server-config-utils.js`, with the module-global
state threaded explicitly.  `now` is the timestamp read by
`new Date()` at the top of the OAuth branch; `nowR` is the timestamp
read by `Date.now()` after the token fetch returns.  The token fetch's
outcome is the `outcome` parameter.  Following the source: a configured
`AUTH` is stored and returned; otherwise with `CLIENT_ID` configured the
refresh condition is evaluated, and a refresh first clears
`globalAuthValue` to `''`, then fetches, then stores
`"Bearer " ++ access_token` and the expiry `Date.now() + expires_in`
(the raw `expires_in` value added to a millisecond clock); otherwise
both globals are set to `null` and `null` is returned. -/
def getAuthValue (cfg : Config) (st : AuthState) (now nowR : Int)
    (outcome : FetchOutcome) : AuthCallResult :=
  if envTruthy cfg.auth then
    let v := JSVal.str (cfg.auth.getD "")
    { result := Except.ok v
      state := { st with globalAuthValue := v }
      fetched := false }
  else if envTruthy cfg.clientId then
    if refreshCond st now then
      match getBearerAuth outcome with
      | Except.error e =>
          { result := Except.error e
            state := { st with globalAuthValue := JSVal.str "" }
            fetched := true }
      | Except.ok d =>
          let newSt : AuthState :=
            { globalAuthValue := JSVal.str d.authHeaderValue
              globalAuthExpiry := some (nowR + d.expiry) }
          { result := Except.ok newSt.globalAuthValue
            state := newSt
            fetched := true }
    else
      { result := Except.ok st.globalAuthValue, state := st, fetched := false }
  else
    { result := Except.ok JSVal.null
      state := { globalAuthValue := JSVal.null, globalAuthExpiry := none }
      fetched := false }

/-!
## Content client factory

`server-config-utils.js` exists in two variants in this repository.  The
first builds the SDK server configuration (choosing the server URL and
attaching a `beforeSend` hook as needed) and calls
`createPreviewClient` / `createDeliveryClient` on *every* call.  The
second caches the created client in a module-global `clientInstance` and
returns the cached instance on subsequent calls.

Reference identity of SDK client objects is modelled by an allocation
counter: each call to a client constructor consumes a fresh id, so two
clients are the same JS object exactly when they carry the same id.
-/

/-- The `serverconfig` object passed to the Oracle Content SDK client
constructors. -/
structure ServerConfig where
  contentServer : Option String
  contentVersion : Option String
  channelToken : Option String
  hasBeforeSend : Bool
deriving DecidableEq, Repr

/-- An SDK client object: its allocation id (standing for JS reference
identity), whether it is a preview client, and the configuration it was
created with. -/
structure ClientInstance where
  id : Nat
  isPreview : Bool
  config : ServerConfig
deriving DecidableEq, Repr

/-- `createDeliveryClient` from the Content SDK: allocates a fresh
client object for the given configuration. -/
def createDeliveryClient (cfg : ServerConfig) (fresh : Nat) :
    ClientInstance × Nat :=
  ({ id := fresh, isPreview := false, config := cfg }, fresh + 1)

/-- `createPreviewClient` from the Content SDK: allocates a fresh
preview client object for the given configuration. -/
def createPreviewClient (cfg : ServerConfig) (fresh : Nat) :
    ClientInstance × Nat :=
  ({ id := fresh, isPreview := true, config := cfg }, fresh + 1)

/-- Execution context of the first `getClient` variant:
`process.env.IS_BROWSER` and (in a browser) `window.location.origin`. -/
structure RunContext where
  isBrowser : Option String
  windowOrigin : String
deriving DecidableEq, Repr

namespace VariantA

/-- The first `getClient` variant of `server-config-utils.js` (the one
with the `beforeSend` auth hook).  Each call computes the server URL
(the app's own origin when auth is needed in a browser, otherwise
`SERVER_URL`), builds the `serverconfig` (attaching `beforeSend` when
auth is needed on the server), and constructs a new preview or delivery
client with it.  The allocation counter stands for the JS heap. -/
def getClient (cfg : Config) (ctx : RunContext) (fresh : Nat) :
    ClientInstance × Nat :=
  let serverURL : Option String :=
    if isAuthNeeded cfg && envTruthy ctx.isBrowser then
      some (ctx.windowOrigin ++ "/")
    else cfg.serverUrl
  let serverconfig : ServerConfig :=
    { contentServer := serverURL
      contentVersion := cfg.apiVersion
      channelToken := cfg.channelToken
      hasBeforeSend := isAuthNeeded cfg && !(envTruthy ctx.isBrowser) }
  if envTruthy cfg.preview then createPreviewClient serverconfig fresh
  else createDeliveryClient serverconfig fresh

end VariantA

namespace VariantB

/-- The module-global state of the second `server-config-utils.js`
variant: `let clientInstance = null;` together with the allocation
counter standing for the JS heap. -/
structure ClientState where
  clientInstance : Option ClientInstance
  fresh : Nat
deriving DecidableEq, Repr

/-- The initial module state: `clientInstance = null`. -/
def initialClientState : ClientState := { clientInstance := none, fresh := 0 }

/-- The second `getClient` variant of `server-config-utils.js`: if
`clientInstance` is null it builds the `serverconfig` from `SERVER_URL`,
`API_VERSION` and `CHANNEL_TOKEN`, creates a delivery client and caches
it; otherwise it returns the cached instance unchanged. -/
def getClient (cfg : Config) (st : ClientState) :
    ClientInstance × ClientState :=
  match st.clientInstance with
  | some c => (c, st)
  | none =>
      let serverconfig : ServerConfig :=
        { contentServer := cfg.serverUrl
          contentVersion := cfg.apiVersion
          channelToken := cfg.channelToken
          hasBeforeSend := false }
      let (c, fresh) := createDeliveryClient serverconfig st.fresh
      (c, { clientInstance := some c, fresh := fresh })

/-- The instances returned by `n` successive calls to `getClient`,
oldest first. -/
def getClientCalls (cfg : Config) : Nat → ClientState →
    List ClientInstance × ClientState
  | 0, st => ([], st)
  | n + 1, st =>
      let (c, st1) := getClient cfg st
      let (cs, st2) := getClientCalls cfg n st1
      (c :: cs, st2)

end VariantB

/-!
## String and HTTP building blocks
-/

/-- Drops `pat` from the front of `cs`, character by character, returning
the remainder when `pat` is a leading substring and `none` otherwise. -/
def dropLeadingChars : List Char → List Char → Option (List Char)
  | [], cs => some cs
  | _ :: _, [] => none
  | p :: ps, c :: cs => if p = c then dropLeadingChars ps cs else none

/-- An upstream HTTP response: status code, headers and raw body bytes. -/
structure HttpResponse where
  status : Nat
  headers : List (String × String)
  body : List Nat
deriving DecidableEq, Repr

/-!
## `services.js`: `flattenArray` and `addItemsToCategories`

Arbitrarily nested JS arrays are modelled by the nested inductive
`Nested`: a value is either a non-array leaf or an array of values.
-/

/-- An arbitrarily nested JS array element: a non-array leaf carrying a
value, or an array of nested elements. -/
inductive Nested (α : Type) where
  | leaf (a : α) : Nested α
  | arr (xs : List (Nested α)) : Nested α
deriving Repr

mutual

/-- `flattenArray` from `services.js`: iterates over `inArray`,
recursing into array elements and pushing non-array elements onto
`result` (JS `push` appends at the end of the shared accumulator). -/
def flattenArray {α : Type} : List (Nested α) → List α → List α
  | [], result => result
  | x :: rest, result => flattenArray rest (flattenOne x result)

/-- One iteration of the `flattenArray` loop body: an array element is
flattened into the accumulator, a non-array element is pushed. -/
def flattenOne {α : Type} : Nested α → List α → List α
  | Nested.leaf a, result => result ++ [a]
  | Nested.arr xs, result => flattenArray xs result

end

mutual

/-- The left-to-right leaves of a list of nested arrays (specification
of full, depth-unlimited flattening). -/
def leavesList {α : Type} : List (Nested α) → List α
  | [] => []
  | x :: rest => leavesOne x ++ leavesList rest

/-- The left-to-right leaves of one nested array element. -/
def leavesOne {α : Type} : Nested α → List α
  | Nested.leaf a => [a]
  | Nested.arr xs => leavesList xs

end

/-- An image content item returned by the content service.  Its fields
beyond identity are irrelevant to the claims and are abstracted to a
name. -/
structure Item where
  name : String
deriving DecidableEq, Repr, Inhabited

/-- The top-level object resolved by `client.getItems`: the item list
and the total result count. -/
structure TopLevelItem where
  items : List Item
  totalResults : Nat
deriving DecidableEq, Repr, Inhabited

/-- A taxonomy category as handled by `services.js`: its id and name,
plus the `items` / `totalResults` fields that `addItemsToCategories`
assigns (absent before assignment). -/
structure Category where
  id : String
  name : String
  items : Option (List Item)
  totalResults : Option Nat
deriving DecidableEq, Repr, Inhabited

/-- `fetchItemsForCategory` from `services.js` on its success path: asks
the delivery client for the items of the category (4 of them when
`limit` is true, 100 otherwise).  The client is abstracted as a function
from category id and limit flag to the resolved top-level object. -/
def fetchItemsForCategory (client : String → Bool → TopLevelItem)
    (categoryId : String) (limit : Bool) : TopLevelItem :=
  client categoryId limit

/-- The promise callback body inside `addItemsToCategories`: fetches the
category's items (with `limit = true`), assigns `category.items` and
`category.totalResults`, and returns a spread copy of the category. -/
def addItemsToCategory (client : String → Bool → TopLevelItem)
    (category : Category) : Category :=
  let topLevelItem := fetchItemsForCategory client category.id true
  { category with
      items := some topLevelItem.items
      totalResults := some topLevelItem.totalResults }

/-- The slot-filling semantics of `Promise.all`: pending promises
complete one at a time in the order listed in `order`, and a completing
promise `i` writes its value `compute i` into slot `i`, independent of
when it completes. -/
def fillSlots {α : Type} (compute : Nat → α) :
    List Nat → (Nat → Option α) → Nat → Option α
  | [], slots => slots
  | i :: rest, slots =>
      fillSlots compute rest (fun j => if j = i then some (compute j) else slots j)

/-- `addItemsToCategories` from `services.js`: builds one promise per
category (each resolving to the category enriched with its items), joins
them with `Promise.all` — the promises completing in the arbitrary order
`order`, each filling its own slot — and passes the slot array, read
back in index order, through `flattenArray`. -/
def addItemsToCategories (client : String → Bool → TopLevelItem)
    (categories : List Category) (order : List Nat) : List Category :=
  let compute : Nat → Nested Category :=
    fun i => Nested.leaf (addItemsToCategory client (categories.getD i default))
  let slots := fillSlots compute order (fun _ => none)
  let arrayOfItems := (List.range categories.length).map
    (fun i => (slots i).getD (Nested.arr []))
  flattenArray arrayOfItems []

/-!
## `utils.js`: `getImageUrl`

JS `String.prototype.replace` with a string pattern replaces only the
first (leftmost) occurrence of the pattern, and returns the string
unchanged when the pattern does not occur.
-/

/-- Splits `s` at the first occurrence of `pat`: returns the part before
the occurrence and the part after it, or `none` when `pat` does not
occur in `s`. -/
def splitAtOcc (pat : List Char) : List Char → Option (List Char × List Char)
  | [] => if pat.isEmpty then some ([], []) else none
  | c :: cs =>
      match dropLeadingChars pat (c :: cs) with
      | some rest => some ([], rest)
      | none =>
          match splitAtOcc pat cs with
          | some (pre, post) => some (c :: pre, post)
          | none => none

/-- JS `s.replace(pat, rep)` for plain-string arguments without `$`
patterns: replaces the first occurrence of `pat` in `s` by `rep`, or
returns `s` unchanged when `pat` does not occur. -/
def jsReplaceFirst (s pat rep : String) : String :=
  match splitAtOcc pat.data s.data with
  | some (pre, post) => String.mk (pre ++ rep.data ++ post)
  | none => s

/-- `getImageUrl` from `utils.js`: when auth is needed, returns
`originalUrl.replace(process.env.NEXT_PUBLIC_SERVER_URL, '/api')`
(an unset environment variable is coerced by JS to the string
`"undefined"`); otherwise returns the URL unchanged. -/
def getImageUrl (cfg : Config) (originalUrl : String) : String :=
  if isAuthNeeded cfg then
    jsReplaceFirst originalUrl (cfg.nextPublicServerUrl.getD "undefined") "/api"
  else originalUrl

/-!
## Proxy handler: the Next.js API route in `src/pages/_app.jsx`

The second document of `src/pages/_app.jsx` is the Next.js API route
that proxies content requests: `handleContentRequest` and its default
`handler` export.  The outbound HTTP call (`https.request` /
`http.request` plus the piping of the proxied response) is abstracted as
a function `upstream` from the outbound URL, the optional
`Authorization` header and the chosen-transport flag
(`oceUrl.startsWith('https')`) to the upstream response; returning
`some` of that response models `writeHead(statusCode, headers)`
followed by piping the body, i.e. relaying the upstream response
unchanged, and `none` models writing no response at all.
-/

/-- An inbound HTTP request as the Node server hands it to the API
route: the method and `req.url` (path plus query string). -/
structure ContentRequest where
  method : String
  url : String
deriving DecidableEq, Repr

/-- `handleContentRequest` from `src/pages/_app.jsx` (lines 34-69): a
non-GET request is ignored (no response is written); for a GET request
the first occurrence of `'/api/'` in `req.url` is replaced by `'/'`
(the URL is forwarded unchanged when the pattern does not occur), the
result is prefixed with `NEXT_PUBLIC_SERVER_URL` (JS coerces an unset
variable to `"undefined"`), an `Authorization` header carrying
`authValue` is attached when `authValue` is truthy, the transport is
chosen by whether the outbound URL starts with `https`, and the
upstream response's status, headers and body are relayed back
unchanged. -/
def handleContentRequest (cfg : Config) (authValue : JSVal)
    (upstream : String → Option JSVal → Bool → HttpResponse)
    (req : ContentRequest) : Option HttpResponse :=
  if req.method = "GET" then
    let newURL := jsReplaceFirst req.url "/api/" "/"
    let oceUrl := cfg.nextPublicServerUrl.getD "undefined" ++ newURL
    let authHeader : Option JSVal :=
      if jsTruthy authValue then some authValue else none
    some (upstream oceUrl authHeader (oceUrl.startsWith "https"))
  else none

/-- The default `handler` export of the API route in
`src/pages/_app.jsx` (lines 86-98): when auth is needed it resolves the
credential via `getAuthValue` and passes it to `handleContentRequest`
(on a rejected `getAuthValue` promise the `then` callback never runs and
no response is written); otherwise it calls `handleContentRequest` with
the empty string.  The pair also carries the token-cache state after
the call. -/
def handler (cfg : Config) (st : AuthState) (now nowR : Int)
    (outcome : FetchOutcome)
    (upstream : String → Option JSVal → Bool → HttpResponse)
    (req : ContentRequest) : Option HttpResponse × AuthState :=
  if isAuthNeeded cfg then
    let r := getAuthValue cfg st now nowR outcome
    match r.result with
    | Except.error _ => (none, r.state)
    | Except.ok v => (handleContentRequest cfg v upstream req, r.state)
  else
    (handleContentRequest cfg (JSVal.str "") upstream req, st)

/-!
## Concrete example inputs

Concrete configurations, clients and categories used to evaluate the
embedded functions at specific inputs.
-/

/-- A configuration with no authentication configured. -/
def cfgNoAuth : Config :=
  { auth := none
    clientId := none
    clientSecret := none
    serverUrl := some "https://content.example.com"
    apiVersion := some "v1.1"
    channelToken := some "tok123"
    preview := none
    nextPublicServerUrl := some "https://content.example.com" }

/-- A configuration with a static `AUTH` header value configured. -/
def cfgStaticAuth : Config := { cfgNoAuth with auth := some "Basic abc123" }

/-- A configuration with the OAuth client-credentials variables
configured and no static `AUTH`. -/
def cfgOAuthOnly : Config :=
  { cfgNoAuth with clientId := some "my-client", clientSecret := some "my-secret" }

/-- A concrete delivery client: resolves every category query with one
item named after the category and a fixed total. -/
def demoDeliveryClient : String → Bool → TopLevelItem :=
  fun categoryId _ => { items := [{ name := categoryId ++ "-item" }], totalResults := 9 }

/-- A concrete upstream service: echoes the outbound URL, the attached
`Authorization` header and the transport choice in its response
headers. -/
def demoUpstream : String → Option JSVal → Bool → HttpResponse :=
  fun url hdr secure =>
    { status := 200
      headers := [("content-type", "image/jpeg"), ("x-url", url),
        ("x-auth", match hdr with | some (JSVal.str a) => a | _ => "absent"),
        ("x-secure", if secure then "yes" else "no")]
      body := [255, 216] }

/-- Two concrete input categories. -/
def demoCategories : List Category :=
  [ { id := "cat-a", name := "Animals", items := none, totalResults := none },
    { id := "cat-b", name := "Beaches", items := none, totalResults := none } ]

/-!
## Helper lemmas
-/

/-- Dropping a list from the front of itself-plus-suffix yields the suffix. -/
theorem dropLeadingChars_append (ps cs : List Char) :
    dropLeadingChars ps (ps ++ cs) = some cs := by
  induction ps with
  | nil => rfl
  | cons p ps ih => simp [dropLeadingChars, ih]

/-- Splitting at an occurrence that sits at the very front finds it there. -/
theorem splitAtOcc_append (pat cs : List Char) :
    splitAtOcc pat (pat ++ cs) = some ([], cs) := by
  cases pat with
  | nil =>
      cases cs with
      | nil => rfl
      | cons c cs' => simp [splitAtOcc, dropLeadingChars]
  | cons p ps => simp [splitAtOcc, dropLeadingChars, dropLeadingChars_append]

/-- A slot of the `Promise.all` slot array holds the value of its own
promise as soon as its index occurs in the completion order, and is
untouched otherwise — independent of where in the order it completes. -/
theorem fillSlots_eq {α : Type} (compute : Nat → α) (order : List Nat)
    (slots : Nat → Option α) (i : Nat) :
    fillSlots compute order slots i =
      if i ∈ order then some (compute i) else slots i := by
  induction order generalizing slots with
  | nil => simp [fillSlots]
  | cons j rest ih =>
      rw [fillSlots, ih]
      by_cases hij : i = j
      · subst hij
        by_cases hmem : i ∈ rest <;> simp [hmem, List.mem_cons]
      · by_cases hmem : i ∈ rest <;> simp [hmem, hij, List.mem_cons]

mutual

/-- `flattenArray` appends the left-to-right leaves of its input to the
accumulator. -/
theorem flattenArray_eq {α : Type} :
    ∀ (l : List (Nested α)) (acc : List α),
      flattenArray l acc = acc ++ leavesList l
  | [], acc => by simp [flattenArray, leavesList]
  | x :: rest, acc => by
      rw [flattenArray, flattenOne_eq x acc, flattenArray_eq rest, leavesList,
        List.append_assoc]

/-- The `flattenArray` loop body appends the leaves of one element to the
accumulator. -/
theorem flattenOne_eq {α : Type} :
    ∀ (x : Nested α) (acc : List α), flattenOne x acc = acc ++ leavesOne x
  | Nested.leaf a, acc => by simp [flattenOne, leavesOne]
  | Nested.arr xs, acc => by rw [flattenOne, leavesOne, flattenArray_eq xs]

end

/-- The leaves of a list of non-array elements are the elements themselves. -/
theorem leavesList_map_leaf {α : Type} (xs : List α) :
    leavesList (xs.map Nested.leaf) = xs := by
  induction xs with
  | nil => rfl
  | cons x xs ih => simp [leavesList, leavesOne, ih]

/-- Reading a list back through `getD` along `List.range` of its length
recovers the list (mapped through `f`). -/
theorem range_map_getD {α β : Type} [Inhabited α] (l : List α) (f : α → β) :
    (List.range l.length).map (fun i => f (l.getD i default)) = l.map f := by
  apply List.ext_getElem
  · simp
  · intro i h1 h2
    have hi : i < l.length := by simpa using h1
    simp [List.getElem_map, List.getElem_range, List.getD_eq_getElem l default hi,
      List.getElem?_eq_getElem hi]

/-- Once the second `getClient` variant has cached an instance, every
further call returns exactly that instance and leaves the state alone. -/
theorem getClientCalls_cached (cfg : Config) (n : Nat)
    (st : VariantB.ClientState) (c : ClientInstance)
    (h : st.clientInstance = some c) :
    VariantB.getClientCalls cfg n st = (List.replicate n c, st) := by
  induction n with
  | zero => simp [VariantB.getClientCalls]
  | succ n ih =>
      simp [VariantB.getClientCalls, VariantB.getClient, h, ih, List.replicate]

/-!
## Claim theorems
-/

/-- Claim C1: the refresh condition of `getAuthValue` is inverted in the
code.  With a cached credential whose expiry is 10 seconds in the future
(more than 5 seconds away), the code performs a token fetch, whereas the
claim (and the code's own comment) say the cached credential is returned
without a fetch; and with the expiry only 3 seconds away (within the
5-second buffer), the code returns the stale cached credential without
any refresh, whereas the claim says exactly one refresh is performed. -/
theorem getAuthValue_refresh_condition_inverted :
    (getAuthValue cfgOAuthOnly
        { globalAuthValue := JSVal.str "Bearer old", globalAuthExpiry := some 10000 }
        0 0 (FetchOutcome.ok "newtok" 600)).fetched = true ∧
    getAuthValue cfgOAuthOnly
        { globalAuthValue := JSVal.str "Bearer old", globalAuthExpiry := some 3000 }
        0 0 (FetchOutcome.ok "newtok" 600) =
      { result := Except.ok (JSVal.str "Bearer old")
        state := { globalAuthValue := JSVal.str "Bearer old", globalAuthExpiry := some 3000 }
        fetched := false } := by
  decide

/-- Claim C2 counterexample: when a refresh attempt fails, the error does
propagate, but the token-cache state is *not* what it was before the
attempt — `globalAuthValue` has been cleared to `''` while
`globalAuthExpiry` still holds the old expiry, a partially-updated
combination. -/
theorem getAuthValue_failed_refresh_mutates_cache :
    (getAuthValue cfgOAuthOnly
        { globalAuthValue := JSVal.str "Bearer old", globalAuthExpiry := some 10000 }
        0 0 FetchOutcome.fail).result = Except.error () ∧
    (getAuthValue cfgOAuthOnly
        { globalAuthValue := JSVal.str "Bearer old", globalAuthExpiry := some 10000 }
        0 0 FetchOutcome.fail).state ≠
      { globalAuthValue := JSVal.str "Bearer old", globalAuthExpiry := some 10000 } := by
  decide

/-- Claim C2 (amended): when a refresh attempt fails, the error
propagates to the caller of `getAuthValue`; the expiry field is left
unchanged, but the credential field has been cleared to `''` at the
start of the attempt (which still forces a retry on the next call). -/
theorem getAuthValue_failed_refresh_behavior (cfg : Config) (st : AuthState)
    (now nowR : Int)
    (hA : envTruthy cfg.auth = false) (hC : envTruthy cfg.clientId = true)
    (hR : refreshCond st now = true) :
    getAuthValue cfg st now nowR FetchOutcome.fail =
      { result := Except.error ()
        state := { globalAuthValue := JSVal.str "", globalAuthExpiry := st.globalAuthExpiry }
        fetched := true } := by
  simp [getAuthValue, hA, hC, hR, getBearerAuth]

/-- Witness for the amended claim C2 at a concrete input. -/
theorem getAuthValue_failed_refresh_behavior_witness :
    getAuthValue cfgOAuthOnly initialAuthState 0 0 FetchOutcome.fail =
      { result := Except.error ()
        state := { globalAuthValue := JSVal.str "", globalAuthExpiry := none }
        fetched := true } :=
  getAuthValue_failed_refresh_behavior cfgOAuthOnly initialAuthState 0 0
    (by decide) (by decide) (by decide)

/-- Claim C3: after a successful refresh with `expires_in = 3600`
performed at millisecond timestamp 1000000, the code stores the expiry
timestamp 1003600 — it adds the raw seconds value to a millisecond
clock — and not the 1000000 + 3600 * 1000 that the claim requires. -/
theorem getAuthValue_expiry_seconds_added_as_ms :
    (getAuthValue cfgOAuthOnly initialAuthState 0 1000000
        (FetchOutcome.ok "tok" 3600)).state.globalAuthExpiry = some 1003600 ∧
    (1003600 : Int) ≠ 1000000 + 3600 * 1000 := by
  decide

/-- Claim C6: with a static `AUTH` value configured, every call to
`getAuthValue` returns exactly that string and performs no token fetch,
whatever the cache state, the clock or the would-be fetch outcome. -/
theorem getAuthValue_static_auth (cfg : Config) (a : String) (st : AuthState)
    (now nowR : Int) (outcome : FetchOutcome)
    (hA : cfg.auth = some a) (ha : a ≠ "") :
    (getAuthValue cfg st now nowR outcome).result = Except.ok (JSVal.str a) ∧
    (getAuthValue cfg st now nowR outcome).fetched = false := by
  simp [getAuthValue, hA, envTruthy, ha]

/-- Witness for claim C6 at a concrete input. -/
theorem getAuthValue_static_auth_witness :
    (getAuthValue cfgStaticAuth initialAuthState 0 0 FetchOutcome.fail).result =
      Except.ok (JSVal.str "Basic abc123") ∧
    (getAuthValue cfgStaticAuth initialAuthState 0 0 FetchOutcome.fail).fetched = false :=
  getAuthValue_static_auth cfgStaticAuth "Basic abc123" initialAuthState 0 0
    FetchOutcome.fail rfl (by decide)

/-- Claim C7: with neither `AUTH` nor `CLIENT_ID` set, `isAuthNeeded`
returns false and `getAuthValue` returns `null` (and performs no fetch),
whatever the cache state, the clock or the would-be fetch outcome. -/
theorem getAuthValue_no_auth_config (cfg : Config) (st : AuthState)
    (now nowR : Int) (outcome : FetchOutcome)
    (hA : cfg.auth = none) (hC : cfg.clientId = none) :
    isAuthNeeded cfg = false ∧
    getAuthValue cfg st now nowR outcome =
      { result := Except.ok JSVal.null
        state := { globalAuthValue := JSVal.null, globalAuthExpiry := none }
        fetched := false } := by
  simp [isAuthNeeded, getAuthValue, hA, hC, envTruthy]

/-- Witness for claim C7 at a concrete input. -/
theorem getAuthValue_no_auth_config_witness :
    isAuthNeeded cfgNoAuth = false ∧
    getAuthValue cfgNoAuth initialAuthState 0 0 FetchOutcome.fail =
      { result := Except.ok JSVal.null
        state := { globalAuthValue := JSVal.null, globalAuthExpiry := none }
        fetched := false } :=
  getAuthValue_no_auth_config cfgNoAuth initialAuthState 0 0 FetchOutcome.fail
    rfl rfl

/-- Claim C4 counterexample: the `beforeSend` variant of `getClient`
constructs a new SDK client object on every call — two successive calls
under the same fixed configuration return distinct instances, so that
variant is not a memoized singleton. -/
theorem getClientA_two_calls_distinct :
    (VariantA.getClient cfgOAuthOnly { isBrowser := none, windowOrigin := "" } 0).1 ≠
    (VariantA.getClient cfgOAuthOnly { isBrowser := none, windowOrigin := "" }
      (VariantA.getClient cfgOAuthOnly { isBrowser := none, windowOrigin := "" } 0).2).1 := by
  decide

/-- Claim C4 (amended): the `clientInstance`-caching variant of
`getClient` is a memoized singleton — for every fixed configuration,
any number of successive calls starting from the initial module state
all return the very instance constructed by the first call. -/
theorem getClientB_memoized_singleton (cfg : Config) (n : Nat) :
    (VariantB.getClientCalls cfg n VariantB.initialClientState).1 =
      List.replicate n (VariantB.getClient cfg VariantB.initialClientState).1 := by
  cases n with
  | zero => rfl
  | succ m =>
      have h : ((VariantB.getClient cfg VariantB.initialClientState).2).clientInstance =
          some (VariantB.getClient cfg VariantB.initialClientState).1 := rfl
      have hcalls := getClientCalls_cached cfg m
        (VariantB.getClient cfg VariantB.initialClientState).2
        (VariantB.getClient cfg VariantB.initialClientState).1 h
      simp [VariantB.getClientCalls, hcalls, List.replicate]

/-- Replacing the first occurrence of a pattern that sits at the very
front of the string substitutes it there and keeps the rest intact. -/
theorem jsReplaceFirst_append (pat rest rep : String) :
    jsReplaceFirst (pat ++ rest) pat rep = rep ++ rest := by
  unfold jsReplaceFirst
  rw [show (pat ++ rest).data = pat.data ++ rest.data from String.data_append _ _,
    splitAtOcc_append]
  show String.mk ([] ++ rep.data ++ rest.data) = rep ++ rest
  rw [List.nil_append, show rep.data ++ rest.data = (rep ++ rest).data from
    (String.data_append _ _).symm]

/-- Claim C5: a GET request whose `req.url` is `/api/<upstream-path>`
with its query string is forwarded by the proxy route to
`<SERVER_URL>/<upstream-path>` with the path and query string preserved
(`'/api/'` occurs first at position 0, so exactly that occurrence is
replaced by `'/'`), and the upstream response — status, headers and
body — is relayed back to the caller unchanged, whatever credential is
being attached. -/
theorem handleContentRequest_get_forwards (cfg : Config) (s rest : String)
    (authValue : JSVal)
    (upstream : String → Option JSVal → Bool → HttpResponse)
    (hs : cfg.nextPublicServerUrl = some s) :
    handleContentRequest cfg authValue upstream
        { method := "GET", url := "/api/" ++ rest } =
      some (upstream (s ++ ("/" ++ rest))
        (if jsTruthy authValue then some authValue else none)
        ((s ++ ("/" ++ rest)).startsWith "https")) := by
  unfold handleContentRequest
  rw [if_pos rfl]
  show some (upstream (cfg.nextPublicServerUrl.getD "undefined" ++
      jsReplaceFirst ("/api/" ++ rest) "/api/" "/") _ _) = _
  rw [jsReplaceFirst_append, hs]
  rfl

/-- Witness for claim C5 at a concrete input: a GET for an image with a
query string, a static credential attached. -/
theorem handleContentRequest_get_forwards_witness :
    handleContentRequest cfgStaticAuth (JSVal.str "Basic abc123") demoUpstream
        { method := "GET", url := "/api/" ++ "content/img.jpg?fmt=webp" } =
      some (demoUpstream ("https://content.example.com" ++ ("/" ++ "content/img.jpg?fmt=webp"))
        (if jsTruthy (JSVal.str "Basic abc123") then some (JSVal.str "Basic abc123") else none)
        (("https://content.example.com" ++ ("/" ++ "content/img.jpg?fmt=webp")).startsWith "https")) :=
  handleContentRequest_get_forwards cfgStaticAuth "https://content.example.com"
    "content/img.jpg?fmt=webp" (JSVal.str "Basic abc123") demoUpstream rfl

/-- Claim C8: for every input list of categories and every completion
order in which all the per-category item fetches finish,
`addItemsToCategories` produces the input categories, each enriched with
its items, in exactly the input order — in particular the result length
equals the input length. -/
theorem addItemsToCategories_preserves_order
    (client : String → Bool → TopLevelItem) (categories : List Category)
    (order : List Nat)
    (hc : ∀ i ∈ List.range categories.length, i ∈ order) :
    addItemsToCategories client categories order =
      categories.map (addItemsToCategory client) ∧
    (addItemsToCategories client categories order).length = categories.length := by
  have hmain : addItemsToCategories client categories order =
      categories.map (addItemsToCategory client) := by
    show flattenArray ((List.range categories.length).map
        (fun i => (fillSlots
          (fun i => Nested.leaf (addItemsToCategory client (categories.getD i default)))
          order (fun _ => none) i).getD (Nested.arr []))) [] =
      categories.map (addItemsToCategory client)
    rw [List.map_congr_left (g := fun i =>
        Nested.leaf (addItemsToCategory client (categories.getD i default)))
      (fun i hi => by rw [fillSlots_eq]; simp [hc i hi])]
    rw [show (List.range categories.length).map (fun i =>
          Nested.leaf (addItemsToCategory client (categories.getD i default))) =
        ((List.range categories.length).map (fun i =>
          addItemsToCategory client (categories.getD i default))).map Nested.leaf by
      rw [List.map_map]; rfl]
    rw [flattenArray_eq, leavesList_map_leaf, range_map_getD]
    rfl
  exact ⟨hmain, by rw [hmain]; simp⟩

/-- Witness for claim C8 at a concrete input: two categories whose
fetches complete in reverse order. -/
theorem addItemsToCategories_preserves_order_witness :
    addItemsToCategories demoDeliveryClient demoCategories [1, 0] =
      demoCategories.map (addItemsToCategory demoDeliveryClient) ∧
    (addItemsToCategories demoDeliveryClient demoCategories [1, 0]).length =
      demoCategories.length :=
  addItemsToCategories_preserves_order demoDeliveryClient demoCategories [1, 0]
    (by decide)

/-- Claim C9: `flattenArray` returns the fully flattened, depth-unlimited
list of the non-array leaves of its input in left-to-right order, and on
an already-flat input list it returns a list equal to the input. -/
theorem flattenArray_fully_flattens {α : Type} (l : List (Nested α)) (xs : List α) :
    flattenArray l [] = leavesList l ∧
    flattenArray (xs.map Nested.leaf) [] = xs := by
  constructor
  · rw [flattenArray_eq]; rfl
  · rw [flattenArray_eq, leavesList_map_leaf]; rfl

/-- Claim C10: when neither `AUTH` nor `CLIENT_ID` is configured,
`getImageUrl` is the identity; when either is configured, a URL that
starts with the configured `NEXT_PUBLIC_SERVER_URL` has exactly that
first occurrence of the prefix replaced by `/api`, the rest of the URL
(path and query) kept intact. -/
theorem getImageUrl_rewrites_server_url (cfg : Config) (u s rest : String) :
    (isAuthNeeded cfg = false → getImageUrl cfg u = u) ∧
    (isAuthNeeded cfg = true → cfg.nextPublicServerUrl = some s →
      getImageUrl cfg (s ++ rest) = "/api" ++ rest) := by
  constructor
  · intro h
    simp [getImageUrl, h]
  · intro h hs
    rw [getImageUrl, if_pos h, hs, jsReplaceFirst]
    rw [show (s ++ rest).data = s.data ++ rest.data from String.data_append _ _]
    show (match splitAtOcc (Option.getD (some s) "undefined").data
        (s.data ++ rest.data) with
      | some (pre, post) => String.mk (pre ++ "/api".data ++ post)
      | none => s ++ rest) = "/api" ++ rest
    rw [Option.getD, splitAtOcc_append]
    show String.mk ([] ++ "/api".data ++ rest.data) = "/api" ++ rest
    rw [List.nil_append, show "/api".data ++ rest.data = ("/api" ++ rest).data from
      (String.data_append _ _).symm]

/-- Witness for claim C10 at concrete inputs: one configuration without
auth (identity) and one with a static auth value (prefix rewritten). -/
theorem getImageUrl_rewrites_server_url_witness :
    getImageUrl cfgNoAuth "https://content.example.com/content/img.jpg?fmt=webp" =
      "https://content.example.com/content/img.jpg?fmt=webp" ∧
    getImageUrl cfgStaticAuth ("https://content.example.com" ++ "/content/img.jpg?fmt=webp") =
      "/api" ++ "/content/img.jpg?fmt=webp" :=
  ⟨(getImageUrl_rewrites_server_url cfgNoAuth
      "https://content.example.com/content/img.jpg?fmt=webp" "" "").1 (by decide),
   (getImageUrl_rewrites_server_url cfgStaticAuth ""
      "https://content.example.com" "/content/img.jpg?fmt=webp").2 (by decide) rfl⟩
